import Mathlib

/-!
Shallow embedding of the `fastify-statistics` plugin (src/index.js) and
verification of its specification claims.

JS numbers are modelled as rationals (`ℚ`); JS runtime values that may reach
`sanitizeNumber` are modelled by the inductive `JSVal`; memory byte counts are
naturals; fallible runtime queries are `Except`.
-/

namespace FastifyStatistics

/-- Models a JavaScript runtime value as far as the plugin inspects one:
finite numbers carry a rational value, and the non-finite / non-numeric
cases the code distinguishes are separate constructors. -/
inductive JSVal where
  | num (q : ℚ)
  | nan
  | inf (positive : Bool)
  | undef
  | null
  | bool (b : Bool)
  | str (s : String)
  deriving DecidableEq, Repr

/-- Models the JS test `typeof value === 'number'` (NaN and infinities are
number-typed in JS). -/
def JSVal.isNumberType : JSVal → Bool
  | .num _ => true
  | .nan => true
  | .inf _ => true
  | _ => false

/-- Models `Number.isNaN value`. -/
def JSVal.isNaNVal : JSVal → Bool
  | .nan => true
  | _ => false

/-- Models `Number.isFinite value` (false on every non-number). -/
def JSVal.isFiniteNumber : JSVal → Bool
  | .num _ => true
  | _ => false

/-- Numeric value of a finite JS number; 0 elsewhere (only used under the
finiteness guard, mirroring the untyped JS access). -/
def JSVal.toRatValue : JSVal → ℚ
  | .num q => q
  | _ => 0

/-- Models `sanitizeNumber` (src/index.js lines 39-44): any value that is not
a finite number becomes 0, a finite number passes through unchanged. -/
def sanitizeNumber (value : JSVal) : ℚ :=
  if !value.isNumberType || value.isNaNVal || !value.isFiniteNumber then 0
  else value.toRatValue

/-- Decimal digit character for a digit `d < 10`. -/
def digitToChar : ℕ → Char
  | 0 => '0'
  | 1 => '1'
  | 2 => '2'
  | 3 => '3'
  | 4 => '4'
  | 5 => '5'
  | 6 => '6'
  | 7 => '7'
  | 8 => '8'
  | 9 => '9'
  | _ => '?'

/-- Numeric value of a decimal digit character. -/
def charToDigit (c : Char) : ℕ := c.toNat - 48

/-- Little-endian decimal digits, fuel-based so that the kernel can evaluate
it on literals; `digitsRevAux n n` agrees with `Nat.digits 10 n`. -/
def digitsRevAux : ℕ → ℕ → List ℕ
  | 0, _ => []
  | fuel + 1, n => if n = 0 then [] else n % 10 :: digitsRevAux fuel (n / 10)

/-- Little-endian decimal digits of `n`. -/
def natDigits (n : ℕ) : List ℕ := digitsRevAux n n

/-- Models `Number.prototype.toString()` on a non-negative integer: the
canonical base-10 numeral (big-endian digit characters). -/
def renderNat (n : ℕ) : String :=
  if n = 0 then "0" else ⟨(natDigits n).reverse.map digitToChar⟩

/-- Big-endian decimal digit list folded back into a natural number. -/
def parseDigitsBE (ds : List ℕ) : ℕ := ds.foldl (fun a d => 10 * a + d) 0

/-- Two-digit zero-padded rendering of `m < 100`, the fractional part of a
`toFixed(2)` result. -/
def padFrac2 (m : ℕ) : String :=
  if m < 10 then "0" ++ renderNat m else renderNat m

/-- Rendering of `n` hundredths in fixed two-decimal notation, e.g.
`renderFixed2 1234 = "12.34"`. -/
def renderFixed2 (n : ℕ) : String :=
  renderNat (n / 100) ++ "." ++ padFrac2 (n % 100)

/-- The integer count of hundredths chosen by `toFixed(2)` for a
non-negative value: the nearest integer to `100 * q`, ties to the larger
integer, as ECMA-262 specifies. -/
def fixed2Of (q : ℚ) : ℕ := (⌊100 * q + 1 / 2⌋).toNat

/-- Models `(q).toFixed(2)` of ECMA-262 on the rational value `q`. -/
def toFixed2 (q : ℚ) : String :=
  if q < 0 then "-" ++ renderFixed2 (fixed2Of (-q)) else renderFixed2 (fixed2Of q)

/-- Executable decimal parser giving the numeric value of strings such as
`"123"` or `"12.34"`: models what `parseFloat` / `parseInt` recover from the
plugin's rendered fields. -/
def parseDecimal? (s : String) : Option ℚ :=
  let intPart := s.data.takeWhile Char.isDigit
  let rest := s.data.dropWhile Char.isDigit
  if intPart.isEmpty then none
  else
    match rest with
    | [] => some (parseDigitsBE (intPart.map charToDigit))
    | '.' :: frac =>
        if frac.isEmpty || !frac.all Char.isDigit then none
        else some ((parseDigitsBE (intPart.map charToDigit) : ℚ) +
                   (parseDigitsBE (frac.map charToDigit) : ℚ) / 10 ^ frac.length)
    | _ => none

/-- Cumulative event-loop active/idle times of a utilization snapshot, as the
host runtime accounts them. -/
structure ELUTimes where
  active : ℚ
  idle : ℚ
  deriving DecidableEq, Repr

/-- The part of a `performance.eventLoopUtilization(...)` return value the
plugin reads: its `utilization` field, an untyped JS value. -/
structure ELUReading where
  utilization : JSVal
  deriving DecidableEq, Repr

/-- Modelled from the spec: the host runtime's event-loop-utilization
measurement (absent from this repository's sources) computes utilization
relative to a baseline snapshot as delta active time over delta total
(active plus idle) time — "current minus baseline". -/
def eluRelative (base cur : ELUTimes) : ℚ :=
  (cur.active - base.active) / ((cur.active + cur.idle) - (base.active + base.idle))

/-- The `elu` object of a metrics response body. -/
structure Elu where
  raw : ℚ
  percentage : String
  deriving DecidableEq, Repr

/-- Models `getEventLoopUtilization` (src/index.js lines 46-58):
`null` when the capability is absent or no baseline was captured, otherwise
the sanitized utilization and its percentage rendering. `current` is the
reading the runtime returns for this call. -/
def getEventLoopUtilization (hasEventLoopUtilization : Bool)
    (eventLoopUtilization : Option ELUTimes) (current : ELUReading) : Option Elu :=
  if !hasEventLoopUtilization || eventLoopUtilization.isNone then none
  else
    let utilization := sanitizeNumber current.utilization
    some { raw := utilization, percentage := toFixed2 (utilization * 100) ++ "%" }

/-- Models `formatMB` (src/index.js line 33). -/
def formatMB (bytes : ℚ) : String := toFixed2 (bytes / 1024 / 1024) ++ " MB"

/-- Models `formatMemoryValue` (src/index.js lines 35-37); memory byte counts
reported by the runtime are non-negative integers. -/
def formatMemoryValue (metricsInMB : Bool) (value : ℕ) : String :=
  if metricsInMB then formatMB (value : ℚ) else renderNat value

/-- The four byte counts of a `process.memoryUsage()` result that the plugin
reads. -/
structure MemoryUsage where
  rss : ℕ
  heapTotal : ℕ
  heapUsed : ℕ
  external : ℕ
  deriving DecidableEq, Repr

/-- An error raised by a runtime introspection call. -/
inductive JsError where
  | error (msg : String)
  deriving DecidableEq, Repr

/-- The runtime readings available to one request: the (fallible) memory
query result, the utilization reading, the process uptime in seconds, and
the current instant already rendered by `new Date().toISOString()`. -/
structure RuntimeEnv where
  memoryUsage : Except JsError MemoryUsage
  eluReading : ELUReading
  uptime : ℚ
  nowISO : String

/-- The `memory` object of a metrics response body. -/
structure MemoryBody where
  rss : String
  heapTotal : String
  heapUsed : String
  external : String
  deriving DecidableEq, Repr

/-- Response body of `GET <metricsRoute>`. -/
structure MetricsBody where
  memory : MemoryBody
  elu : Option Elu
  timestamp : String
  deriving DecidableEq, Repr

/-- Response body of `GET /stats`. -/
structure StatsBody where
  uptime : ℤ
  memory : MemoryBody
  elu : Option Elu
  timestamp : String
  deriving DecidableEq, Repr

/-- Merged plugin configuration: `metricsInMB` as the truthiness the handlers
test, and the two raw route values passed to `fastify.route`. -/
structure Config where
  metricsInMB : Bool
  uptimeRoute : JSVal
  metricsRoute : JSVal
  deriving DecidableEq, Repr

/-- Models the handler of `GET <uptimeRoute>` (src/index.js lines 78-82):
`Math.floor(process.uptime())`. -/
def uptimeHandler (env : RuntimeEnv) : ℤ := ⌊env.uptime⌋

/-- Models the handler of `GET <metricsRoute>` (src/index.js lines 138-152).
An error from the memory query propagates uncaught. -/
def metricsHandler (config : Config) (hasEventLoopUtilization : Bool)
    (eventLoopUtilization : Option ELUTimes) (env : RuntimeEnv) :
    Except JsError MetricsBody :=
  match env.memoryUsage with
  | .error e => .error e
  | .ok memoryUsage =>
      let elu := getEventLoopUtilization hasEventLoopUtilization
        eventLoopUtilization env.eluReading
      .ok
        { memory :=
            { rss := formatMemoryValue config.metricsInMB memoryUsage.rss
            , heapTotal := formatMemoryValue config.metricsInMB memoryUsage.heapTotal
            , heapUsed := formatMemoryValue config.metricsInMB memoryUsage.heapUsed
            , external := formatMemoryValue config.metricsInMB memoryUsage.external }
        , elu := elu
        , timestamp := env.nowISO }

/-- Models the handler of `GET /stats` (src/index.js lines 191-206). -/
def statsHandler (config : Config) (hasEventLoopUtilization : Bool)
    (eventLoopUtilization : Option ELUTimes) (env : RuntimeEnv) :
    Except JsError StatsBody :=
  match env.memoryUsage with
  | .error e => .error e
  | .ok memoryUsage =>
      let elu := getEventLoopUtilization hasEventLoopUtilization
        eventLoopUtilization env.eluReading
      .ok
        { uptime := ⌊env.uptime⌋
        , memory :=
            { rss := formatMemoryValue config.metricsInMB memoryUsage.rss
            , heapTotal := formatMemoryValue config.metricsInMB memoryUsage.heapTotal
            , heapUsed := formatMemoryValue config.metricsInMB memoryUsage.heapUsed
            , external := formatMemoryValue config.metricsInMB memoryUsage.external }
        , elu := elu
        , timestamp := env.nowISO }

/-- Modelled from the spec: the host framework (Fastify, not part of this
repository) surfaces an uncaught handler error as an HTTP 500 response and a
returned body as HTTP 200. -/
def httpStatusOf {α : Type} : Except JsError α → ℕ
  | .error _ => 500
  | .ok _ => 200

/-- A stats body assembled from a metrics body plus the floored uptime. -/
def addUptime (u : ℤ) (m : MetricsBody) : StatsBody :=
  { uptime := u, memory := m.memory, elu := m.elu, timestamp := m.timestamp }

/-- A JS options object modelled as an association list of own properties;
a key present with value `JSVal.undef` is distinct from an absent key. -/
abbrev JSObj := List (String × JSVal)

/-- Own-property lookup on a modelled JS object. -/
def JSObj.getProp : JSObj → String → Option JSVal
  | [], _ => none
  | (k', v) :: rest, k => if k' = k then some v else JSObj.getProp rest k

/-- The default configuration object spread first in
`{ metricsInMB: false, uptimeRoute: '/uptime', metricsRoute: '/metrics', ...options }`
(src/index.js lines 14-19). -/
def defaultConfig : JSObj :=
  [ ("metricsInMB", JSVal.bool false)
  , ("uptimeRoute", JSVal.str "/uptime")
  , ("metricsRoute", JSVal.str "/metrics") ]

/-- Property lookup on the merged object `{ ...defaults, ...options }`: JS
spread copies every own property of `options`, including those whose value
is `undefined`, so any key present in `options` overrides the default. -/
def mergedLookup (options : JSObj) (k : String) : Option JSVal :=
  match options.getProp k with
  | some v => some v
  | none => defaultConfig.getProp k

/-- Models JS truthiness, as tested by `config.metricsInMB ? _ : _`. -/
def jsTruthy : JSVal → Bool
  | .num q => decide (q ≠ 0)
  | .nan => false
  | .inf _ => true
  | .undef => false
  | .null => false
  | .bool b => b
  | .str s => decide (s ≠ "")

/-- The configuration data the plugin actually reads out of the merged
object: the truthiness of `metricsInMB` and the two route values. -/
def toConfig (options : JSObj) : Config :=
  { metricsInMB := jsTruthy ((mergedLookup options "metricsInMB").getD JSVal.undef)
  , uptimeRoute := (mergedLookup options "uptimeRoute").getD JSVal.undef
  , metricsRoute := (mergedLookup options "metricsRoute").getD JSVal.undef }

/-- Call counters and flag of the event-loop-delay histogram handle. -/
structure HistogramHandle where
  enableCalls : ℕ
  disableCalls : ℕ
  enabled : Bool
  deriving DecidableEq, Repr

/-- Lifecycle phase of one plugin registration. -/
inductive PluginPhase where
  | unregistered
  | registered
  | closed
  deriving DecidableEq, Repr

/-- Observable per-registration state for the histogram lifecycle. -/
structure PluginState where
  phase : PluginPhase
  histogram : Option HistogramHandle
  histogramsCreated : ℕ
  deriving DecidableEq, Repr

/-- The state before the plugin is registered. -/
def pluginStart : PluginState :=
  { phase := .unregistered, histogram := none, histogramsCreated := 0 }

/-- Lifecycle events: plugin registration, serving one request, and the
`onClose` hook. -/
inductive PluginEvent where
  | register
  | request (route : String)
  | close
  deriving DecidableEq, Repr

/-- Lifecycle step relation read off src/index.js: registration creates one
histogram and enables it (lines 28-31), request handlers never touch it
(lines 78-207), and the `onClose` hook disables it (lines 209-212). `none`
marks a transition the lifecycle does not admit. -/
def pluginStep (s : PluginState) : PluginEvent → Option PluginState
  | .register =>
      match s.phase with
      | .unregistered =>
          some { phase := .registered
               , histogram := some { enableCalls := 1, disableCalls := 0, enabled := true }
               , histogramsCreated := s.histogramsCreated + 1 }
      | _ => none
  | .request _ =>
      match s.phase with
      | .registered => some s
      | _ => none
  | .close =>
      match s.phase with
      | .registered =>
          some { phase := .closed
               , histogram := s.histogram.map fun h =>
                   { h with disableCalls := h.disableCalls + 1, enabled := false }
               , histogramsCreated := s.histogramsCreated }
      | _ => none

/-- Run a list of lifecycle events from a state. -/
def runEvents (s : PluginState) (es : List PluginEvent) : Option PluginState :=
  es.foldlM pluginStep s

/-- The shared registration state a served request can see. -/
structure ServerState where
  config : Config
  hasEventLoopUtilization : Bool
  eventLoopUtilization : Option ELUTimes
  histogram : HistogramHandle
  deriving DecidableEq, Repr

/-- The three routes the plugin registers. -/
inductive Route where
  | uptimeRoute
  | metricsRoute
  | statsRoute
  deriving DecidableEq, Repr

/-- A response body from any of the three routes. -/
inductive ResponseBody where
  | uptimeBody (u : ℤ)
  | metricsBody (m : MetricsBody)
  | statsBody (s : StatsBody)
  deriving DecidableEq, Repr

/-- Serving one request: dispatch to the handler read off src/index.js,
threading the shared registration state explicitly. The handlers contain no
assignment to `config`, `eventLoopUtilization` or the histogram handle, so
the state is returned as received. -/
def serveRequest (r : Route) (s : ServerState) (env : RuntimeEnv) :
    ServerState × Except JsError ResponseBody :=
  match r with
  | .uptimeRoute => (s, .ok (.uptimeBody (uptimeHandler env)))
  | .metricsRoute =>
      (s, (metricsHandler s.config s.hasEventLoopUtilization
            s.eventLoopUtilization env).map .metricsBody)
  | .statsRoute =>
      (s, (statsHandler s.config s.hasEventLoopUtilization
            s.eventLoopUtilization env).map .statsBody)

/-- Sample fixture: the default configuration after registration with `{}`. -/
def sampleConfig : Config :=
  { metricsInMB := false, uptimeRoute := .str "/uptime", metricsRoute := .str "/metrics" }

/-- Sample fixture: a baseline utilization snapshot. -/
def sampleBaseline : ELUTimes := { active := 0, idle := 0 }

/-- Sample fixture: a utilization reading of one half. -/
def sampleReading : ELUReading := { utilization := JSVal.num (1 / 2) }

/-- Sample fixture: a plausible memory-usage result. -/
def sampleMemory : MemoryUsage :=
  { rss := 52428800, heapTotal := 20971520, heapUsed := 10485760, external := 1048576 }

/-- Sample fixture: a runtime environment whose memory query succeeds. -/
def sampleEnv : RuntimeEnv :=
  { memoryUsage := .ok sampleMemory, eluReading := sampleReading, uptime := 21 / 2
  , nowISO := "2026-10-11T00:00:00.000Z" }

/-- Sample fixture: a runtime environment whose memory query raises. -/
def sampleEnvErr : RuntimeEnv :=
  { memoryUsage := .error (.error "memoryUsage failed"), eluReading := sampleReading
  , uptime := 21 / 2, nowISO := "2026-10-11T00:00:00.000Z" }

/-- Sample fixture: the `elu` object produced for `sampleReading`. -/
def sampleElu : Elu :=
  { raw := sanitizeNumber sampleReading.utilization
  , percentage := toFixed2 (sanitizeNumber sampleReading.utilization * 100) ++ "%" }

/-- Sample fixture: the metrics body produced for `sampleEnv` under
`sampleConfig`. -/
def sampleMetricsBody : MetricsBody :=
  { memory :=
      { rss := formatMemoryValue sampleConfig.metricsInMB sampleMemory.rss
      , heapTotal := formatMemoryValue sampleConfig.metricsInMB sampleMemory.heapTotal
      , heapUsed := formatMemoryValue sampleConfig.metricsInMB sampleMemory.heapUsed
      , external := formatMemoryValue sampleConfig.metricsInMB sampleMemory.external }
  , elu := some sampleElu
  , timestamp := sampleEnv.nowISO }

/-- The `elu` object produced when the runtime reading is the relative
utilization of `cur` against baseline `base`. -/
def eluAt (base cur : ELUTimes) : Elu :=
  { raw := sanitizeNumber (JSVal.num (eluRelative base cur))
  , percentage := toFixed2 (sanitizeNumber (JSVal.num (eluRelative base cur)) * 100) ++ "%" }

/-! Helper lemmas about decimal rendering and parsing. -/

theorem digitsRevAux_eq (fuel : ℕ) : ∀ n, n ≤ fuel → digitsRevAux fuel n = Nat.digits 10 n := by
  induction fuel with
  | zero =>
      intro n h
      obtain rfl : n = 0 := Nat.le_zero.mp h
      simp [digitsRevAux]
  | succ fuel ih =>
      intro n h
      by_cases hn : n = 0
      · subst hn; simp [digitsRevAux]
      · have hpos : 0 < n := Nat.pos_of_ne_zero hn
        have hdiv : n / 10 ≤ fuel := by
          have := Nat.div_lt_self hpos (by norm_num : 1 < 10)
          omega
        rw [digitsRevAux, if_neg hn, ih _ hdiv, ← Nat.digits_def' (by norm_num : 1 < 10) hpos]

theorem natDigits_eq (n : ℕ) : natDigits n = Nat.digits 10 n :=
  digitsRevAux_eq n n le_rfl

theorem natDigits_lt_ten (n : ℕ) : ∀ d ∈ natDigits n, d < 10 := by
  rw [natDigits_eq]
  exact fun d hd => Nat.digits_lt_base (by norm_num) hd

theorem foldr_eq_ofDigits (L : List ℕ) :
    List.foldr (fun d a => 10 * a + d) 0 L = Nat.ofDigits 10 L := by
  induction L with
  | nil => simp [Nat.ofDigits_nil]
  | cons d L ih => simp [Nat.ofDigits_cons, ih]; ring

theorem parseDigitsBE_reverse_natDigits (n : ℕ) :
    parseDigitsBE (natDigits n).reverse = n := by
  unfold parseDigitsBE
  rw [List.foldl_reverse, foldr_eq_ofDigits, natDigits_eq, Nat.ofDigits_digits]

theorem digitToChar_isDigit {d : ℕ} (h : d < 10) : (digitToChar d).isDigit = true := by
  interval_cases d <;> decide

theorem charToDigit_digitToChar {d : ℕ} (h : d < 10) : charToDigit (digitToChar d) = d := by
  interval_cases d <;> decide

theorem takeWhile_append_all {α : Type} (p : α → Bool) (xs ys : List α)
    (h : ∀ a ∈ xs, p a = true) :
    (xs ++ ys).takeWhile p = xs ++ ys.takeWhile p := by
  induction xs with
  | nil => simp
  | cons a xs ih =>
      have ha : p a = true := h a (by simp)
      have hxs : ∀ b ∈ xs, p b = true := fun b hb => h b (by simp [hb])
      simp [List.takeWhile_cons, ha, ih hxs]

theorem dropWhile_append_all {α : Type} (p : α → Bool) (xs ys : List α)
    (h : ∀ a ∈ xs, p a = true) :
    (xs ++ ys).dropWhile p = ys.dropWhile p := by
  induction xs with
  | nil => simp
  | cons a xs ih =>
      have ha : p a = true := h a (by simp)
      have hxs : ∀ b ∈ xs, p b = true := fun b hb => h b (by simp [hb])
      simp [List.dropWhile_cons, ha, ih hxs]

theorem renderNat_data (n : ℕ) (hn : n ≠ 0) :
    (renderNat n).data = (natDigits n).reverse.map digitToChar := by
  simp [renderNat, hn]

theorem renderNat_all_digits (n : ℕ) : ∀ c ∈ (renderNat n).data, c.isDigit = true := by
  by_cases hn : n = 0
  · subst hn; intro c hc; simp [renderNat] at hc; subst hc; decide
  · rw [renderNat_data n hn]
    intro c hc
    obtain ⟨d, hd, rfl⟩ := List.mem_map.mp hc
    exact digitToChar_isDigit (natDigits_lt_ten n d (List.mem_reverse.mp hd))

theorem renderNat_data_ne_nil (n : ℕ) : (renderNat n).data ≠ [] := by
  by_cases hn : n = 0
  · subst hn; simp [renderNat]
  · rw [renderNat_data n hn]
    simp only [ne_eq, List.map_eq_nil_iff, List.reverse_eq_nil_iff]
    rw [natDigits_eq]
    exact Nat.digits_ne_nil_iff_ne_zero.mpr hn

theorem parseDigitsBE_renderNat (n : ℕ) :
    parseDigitsBE ((renderNat n).data.map charToDigit) = n := by
  by_cases hn : n = 0
  · subst hn; decide
  · rw [renderNat_data n hn, List.map_map]
    have hcongr : ∀ d ∈ (natDigits n).reverse, (charToDigit ∘ digitToChar) d = id d :=
      fun d hd => charToDigit_digitToChar (natDigits_lt_ten n d (List.mem_reverse.mp hd))
    rw [List.map_congr_left hcongr, List.map_id, parseDigitsBE_reverse_natDigits]

theorem parseDecimal?_renderNat (n : ℕ) :
    parseDecimal? (renderNat n) = some (n : ℚ) := by
  unfold parseDecimal?
  have htake : (renderNat n).data.takeWhile Char.isDigit = (renderNat n).data := by
    have := takeWhile_append_all Char.isDigit (renderNat n).data [] (renderNat_all_digits n)
    simpa using this
  have hdrop : (renderNat n).data.dropWhile Char.isDigit = [] := by
    have := dropWhile_append_all Char.isDigit (renderNat n).data [] (renderNat_all_digits n)
    simpa using this
  rw [htake, hdrop]
  simp [List.isEmpty_iff, renderNat_data_ne_nil n, parseDigitsBE_renderNat n]

theorem padFrac2_data (m : ℕ) (h : m < 100) :
    ∃ d₁ d₂, d₁ < 10 ∧ d₂ < 10 ∧
      (padFrac2 m).data = [digitToChar d₁, digitToChar d₂] ∧ 10 * d₁ + d₂ = m := by
  by_cases h10 : m < 10
  · refine ⟨0, m, by norm_num, h10, ?_, by omega⟩
    by_cases hm : m = 0
    · subst hm; decide
    · have hdig : natDigits m = [m] := by
        rw [natDigits_eq, Nat.digits_def' (by norm_num : 1 < 10) (Nat.pos_of_ne_zero hm),
          Nat.mod_eq_of_lt h10, Nat.div_eq_of_lt h10]
        simp
      simp [padFrac2, h10, renderNat, hm, hdig, digitToChar]
  · have hm : m ≠ 0 := by omega
    have hq : m / 10 ≠ 0 := by omega
    have hqlt : m / 10 < 10 := by omega
    have hdig : natDigits m = [m % 10, m / 10] := by
      rw [natDigits_eq, Nat.digits_def' (by norm_num : 1 < 10) (Nat.pos_of_ne_zero hm),
        Nat.digits_def' (by norm_num : 1 < 10) (Nat.pos_of_ne_zero hq),
        Nat.mod_eq_of_lt hqlt, Nat.div_eq_of_lt hqlt]
      simp
    refine ⟨m / 10, m % 10, hqlt, Nat.mod_lt m (by norm_num), ?_, by omega⟩
    simp [padFrac2, h10, renderNat, hm, hdig]

theorem parseDecimal?_renderFixed2 (n : ℕ) :
    parseDecimal? (renderFixed2 n) = some ((n : ℚ) / 100) := by
  obtain ⟨d₁, d₂, hd₁, hd₂, hdata, hval⟩ :=
    padFrac2_data (n % 100) (Nat.mod_lt n (by norm_num))
  have hfix : (renderFixed2 n).data =
      (renderNat (n / 100)).data ++ '.' :: [digitToChar d₁, digitToChar d₂] := by
    simp [renderFixed2, hdata]
  unfold parseDecimal?
  rw [hfix]
  rw [takeWhile_append_all Char.isDigit _ _ (renderNat_all_digits (n / 100)),
    dropWhile_append_all Char.isDigit _ _ (renderNat_all_digits (n / 100))]
  have hdot : List.takeWhile Char.isDigit ('.' :: [digitToChar d₁, digitToChar d₂]) = [] := by
    simp [List.takeWhile_cons]
  have hdot2 : List.dropWhile Char.isDigit ('.' :: [digitToChar d₁, digitToChar d₂]) =
      '.' :: [digitToChar d₁, digitToChar d₂] := by
    simp [List.dropWhile_cons]
  rw [hdot, hdot2]
  have hne : ((renderNat (n / 100)).data ++ []).isEmpty = false := by
    simp [List.isEmpty_iff, renderNat_data_ne_nil (n / 100)]
  simp only [hne, List.append_nil, Bool.false_eq_true, if_false]
  have hfracall : [digitToChar d₁, digitToChar d₂].all Char.isDigit = true := by
    simp [digitToChar_isDigit hd₁, digitToChar_isDigit hd₂]
  simp only [List.isEmpty_cons, hfracall, Bool.not_true, Bool.or_false, Bool.false_eq_true,
    if_false, List.map_cons, List.map_nil, charToDigit_digitToChar hd₁,
    charToDigit_digitToChar hd₂, List.length_cons, List.length_nil]
  rw [parseDigitsBE_renderNat (n / 100)]
  have hpp : parseDigitsBE [d₁, d₂] = n % 100 := by
    simp [parseDigitsBE]
    omega
  rw [hpp, if_neg (show ¬((renderNat (n / 100)).data.isEmpty = true) from by
    simp [List.isEmpty_iff, renderNat_data_ne_nil (n / 100)])]
  congr 1
  have hdm : (100 : ℚ) * ((n / 100 : ℕ) : ℚ) + ((n % 100 : ℕ) : ℚ) = (n : ℚ) := by
    exact_mod_cast Nat.div_add_mod n 100
  rw [show ((10 : ℚ) ^ (0 + 1 + 1)) = 100 from by norm_num]
  field_simp
  linarith [hdm]

theorem toFixed2_of_nonneg {q : ℚ} (h : 0 ≤ q) :
    toFixed2 q = renderFixed2 (fixed2Of q) := by
  simp [toFixed2, not_lt.mpr h]

/-! Helper lemmas about the handlers. -/

theorem getEventLoopUtilization_eq_some (baseline : ELUTimes) (current : ELUReading) :
    getEventLoopUtilization true (some baseline) current =
      some { raw := sanitizeNumber current.utilization
           , percentage := toFixed2 (sanitizeNumber current.utilization * 100) ++ "%" } := rfl

theorem getEventLoopUtilization_percentage (hasELU : Bool) (baseline : Option ELUTimes)
    (current : ELUReading) (e : Elu)
    (h : getEventLoopUtilization hasELU baseline current = some e) :
    e.percentage = toFixed2 (e.raw * 100) ++ "%" := by
  unfold getEventLoopUtilization at h
  by_cases hc : (!hasELU || baseline.isNone) = true
  · rw [if_pos hc] at h; cases h
  · rw [if_neg hc] at h
    cases h
    rfl

theorem sanitizeNumber_num (q : ℚ) : sanitizeNumber (JSVal.num q) = q := rfl

theorem sanitizeNumber_of_not_finite (v : JSVal) (h : v.isFiniteNumber = false) :
    sanitizeNumber v = 0 := by
  cases v <;> first
    | rfl
    | (exfalso; simp [JSVal.isFiniteNumber] at h)

theorem metricsHandler_ok_elu (config : Config) (hasELU : Bool)
    (baseline : Option ELUTimes) (env : RuntimeEnv) (body : MetricsBody)
    (hb : metricsHandler config hasELU baseline env = .ok body) :
    body.elu = getEventLoopUtilization hasELU baseline env.eluReading := by
  unfold metricsHandler at hb
  cases hm : env.memoryUsage with
  | error e => rw [hm] at hb; cases hb
  | ok mu => rw [hm] at hb; cases hb; rfl

theorem statsHandler_ok_elu (config : Config) (hasELU : Bool)
    (baseline : Option ELUTimes) (env : RuntimeEnv) (body : StatsBody)
    (hb : statsHandler config hasELU baseline env = .ok body) :
    body.elu = getEventLoopUtilization hasELU baseline env.eluReading := by
  unfold statsHandler at hb
  cases hm : env.memoryUsage with
  | error e => rw [hm] at hb; cases hb
  | ok mu => rw [hm] at hb; cases hb; rfl

/-! Claim C1. -/

/-- Counterexample to claim C1: the claim asserts both that `elu.raw` always
lies in [0,1] and that every finite numeric reading is passed through
unchanged; a finite numeric utilization reading of 2 is passed through
unchanged by `sanitizeNumber`, producing `raw = 2`, which is outside [0,1]. -/
theorem claim1_counterexample :
    getEventLoopUtilization true (some { active := 0, idle := 0 })
        { utilization := JSVal.num 2 } =
      some { raw := 2, percentage := "200.00%" } ∧ ¬((2 : ℚ) ≤ 1) := by
  refine ⟨?_, by norm_num⟩
  rw [getEventLoopUtilization_eq_some]
  have h1 : sanitizeNumber (JSVal.num 2) = 2 := rfl
  have h2 : (2 : ℚ) * 100 = 200 := by norm_num
  have h3 : fixed2Of 200 = 20000 := by
    unfold fixed2Of
    norm_num
    decide
  rw [h1, h2, toFixed2_of_nonneg (by norm_num : (0 : ℚ) ≤ 200), h3]
  decide

/-- Claim C1 (amended): with the capability present and a baseline captured,
`elu.raw` equals the reading's utilization when that is a finite number and 0
otherwise (non-numeric, NaN or infinite readings are coerced to 0); `raw`
therefore lies in [0,1] whenever every finite numeric reading lies in [0,1],
but an out-of-range finite reading is passed through unchanged. -/
theorem claim1_elu_raw_sanitized (base : ELUTimes) (reading : ELUReading) :
    ∃ e, getEventLoopUtilization true (some base) reading = some e ∧
      (∀ q : ℚ, reading.utilization = JSVal.num q → e.raw = q) ∧
      (reading.utilization.isFiniteNumber = false → e.raw = 0) ∧
      ((∀ q : ℚ, reading.utilization = JSVal.num q → 0 ≤ q ∧ q ≤ 1) →
        0 ≤ e.raw ∧ e.raw ≤ 1) := by
  refine ⟨_, getEventLoopUtilization_eq_some base reading, ?_, ?_, ?_⟩
  · intro q hq
    simp only [hq, sanitizeNumber_num]
  · intro hq
    exact sanitizeNumber_of_not_finite _ hq
  · intro hbound
    cases hu : reading.utilization with
    | num q =>
        have hb := hbound q hu
        simp only [sanitizeNumber_num]
        exact hb
    | _ =>
        rw [sanitizeNumber_of_not_finite _ (by rfl)]
        norm_num

/-- Witness for claim C1 at a concrete reading of one half. -/
theorem claim1_witness :
    getEventLoopUtilization true (some sampleBaseline) sampleReading = some sampleElu ∧
    0 ≤ sampleElu.raw ∧ sampleElu.raw ≤ 1 := by
  obtain ⟨e, he, hpass, hnf, hbound⟩ := claim1_elu_raw_sanitized sampleBaseline sampleReading
  have hb := hbound fun q hq => by
    have hq2 : JSVal.num (1 / 2) = JSVal.num q := hq
    injection hq2 with h
    subst h
    constructor <;> norm_num
  have hsample : getEventLoopUtilization true (some sampleBaseline) sampleReading =
      some sampleElu := rfl
  rw [hsample] at he
  have he2 : sampleElu = e := Option.some_inj.mp he
  rw [← he2] at hb
  exact ⟨hsample, hb.1, hb.2⟩

/-! Claim C2. -/

/-- Claim C2: in every response of `GET <metricsRoute>` or `GET /stats` whose
`elu` is not null, `elu.percentage` is exactly the string obtained by
formatting `elu.raw * 100` to two decimal places with `%` appended — a value
derived from the same sanitized raw, never an independent measurement. -/
theorem claim2_percentage_derived (config : Config) (hasELU : Bool)
    (baseline : Option ELUTimes) (env : RuntimeEnv) :
    (∀ body, metricsHandler config hasELU baseline env = .ok body →
      ∀ e, body.elu = some e → e.percentage = toFixed2 (e.raw * 100) ++ "%") ∧
    (∀ body, statsHandler config hasELU baseline env = .ok body →
      ∀ e, body.elu = some e → e.percentage = toFixed2 (e.raw * 100) ++ "%") := by
  constructor
  · intro body hb e he
    rw [metricsHandler_ok_elu config hasELU baseline env body hb] at he
    exact getEventLoopUtilization_percentage hasELU baseline env.eluReading e he
  · intro body hb e he
    rw [statsHandler_ok_elu config hasELU baseline env body hb] at he
    exact getEventLoopUtilization_percentage hasELU baseline env.eluReading e he

/-- Witness for claim C2 on the sample environment. -/
theorem claim2_witness :
    metricsHandler sampleConfig true (some sampleBaseline) sampleEnv = .ok sampleMetricsBody ∧
    sampleMetricsBody.elu = some sampleElu ∧
    sampleElu.percentage = toFixed2 (sampleElu.raw * 100) ++ "%" := by
  refine ⟨rfl, rfl, ?_⟩
  exact (claim2_percentage_derived sampleConfig true (some sampleBaseline) sampleEnv).1
    sampleMetricsBody rfl sampleElu rfl

/-! Claim C3. -/

/-- Claim C3: for identical runtime readings, the `GET /stats` body is the
`GET <metricsRoute>` body extended with exactly one additional field,
`uptime`, holding the floored process uptime; memory, elu and timestamp are
computed identically, and a memory-query failure yields the same propagated
error, hence the same HTTP 500 outcome, on both routes. -/
theorem claim3_stats_extends_metrics (config : Config) (hasELU : Bool)
    (baseline : Option ELUTimes) (env : RuntimeEnv) :
    statsHandler config hasELU baseline env =
      (metricsHandler config hasELU baseline env).map (addUptime ⌊env.uptime⌋) ∧
    httpStatusOf (statsHandler config hasELU baseline env) =
      httpStatusOf (metricsHandler config hasELU baseline env) := by
  cases hm : env.memoryUsage <;>
    simp [statsHandler, metricsHandler, addUptime, httpStatusOf, hm, Except.map]

/-! Claim C4. -/

/-- Claim C4: each memory field of a successful `GET <metricsRoute>` response
is the raw byte count rendered as a base-10 integer string when
`metricsInMB` is false, and the byte count divided by 1048576 formatted to
two decimals with `" MB"` appended when `metricsInMB` is true. -/
theorem claim4_memory_rendering (config : Config) (hasELU : Bool)
    (baseline : Option ELUTimes) (env : RuntimeEnv) (mu : MemoryUsage)
    (body : MetricsBody) (hm : env.memoryUsage = .ok mu)
    (hb : metricsHandler config hasELU baseline env = .ok body) :
    (config.metricsInMB = false →
      body.memory.rss = renderNat mu.rss ∧
      body.memory.heapTotal = renderNat mu.heapTotal ∧
      body.memory.heapUsed = renderNat mu.heapUsed ∧
      body.memory.external = renderNat mu.external) ∧
    (config.metricsInMB = true →
      body.memory.rss = toFixed2 ((mu.rss : ℚ) / 1048576) ++ " MB" ∧
      body.memory.heapTotal = toFixed2 ((mu.heapTotal : ℚ) / 1048576) ++ " MB" ∧
      body.memory.heapUsed = toFixed2 ((mu.heapUsed : ℚ) / 1048576) ++ " MB" ∧
      body.memory.external = toFixed2 ((mu.external : ℚ) / 1048576) ++ " MB") := by
  unfold metricsHandler at hb
  rw [hm] at hb
  cases hb
  have hdiv : ∀ x : ℚ, x / 1024 / 1024 = x / 1048576 := by
    intro x
    ring
  constructor
  · intro hflag
    simp [formatMemoryValue, hflag]
  · intro hflag
    simp [formatMemoryValue, formatMB, hflag, hdiv]

/-- Witness for claim C4 on the sample environment (default flag). -/
theorem claim4_witness :
    sampleMetricsBody.memory.rss = renderNat sampleMemory.rss ∧
    sampleMetricsBody.memory.heapTotal = renderNat sampleMemory.heapTotal ∧
    sampleMetricsBody.memory.heapUsed = renderNat sampleMemory.heapUsed ∧
    sampleMetricsBody.memory.external = renderNat sampleMemory.external :=
  (claim4_memory_rendering sampleConfig true (some sampleBaseline) sampleEnv
    sampleMemory sampleMetricsBody rfl rfl).1 rfl

/-! Claim C5. -/

/-- Claim C5: a memory-query error during `GET <metricsRoute>` or `GET /stats`
is not caught: it propagates out of the handler unchanged, both routes
surface it as HTTP 500, and a successful query never reaches that branch. -/
theorem claim5_error_propagation (config : Config) (hasELU : Bool)
    (baseline : Option ELUTimes) (env : RuntimeEnv) :
    (∀ e, env.memoryUsage = .error e →
      metricsHandler config hasELU baseline env = .error e ∧
      statsHandler config hasELU baseline env = .error e ∧
      httpStatusOf (metricsHandler config hasELU baseline env) = 500 ∧
      httpStatusOf (statsHandler config hasELU baseline env) = 500) ∧
    (∀ mu, env.memoryUsage = .ok mu →
      httpStatusOf (metricsHandler config hasELU baseline env) = 200 ∧
      httpStatusOf (statsHandler config hasELU baseline env) = 200) := by
  constructor
  · intro e he
    simp [metricsHandler, statsHandler, httpStatusOf, he]
  · intro mu hmu
    simp [metricsHandler, statsHandler, httpStatusOf, hmu]

/-- Witness for claim C5 on the failing sample environment. -/
theorem claim5_witness :
    metricsHandler sampleConfig true (some sampleBaseline) sampleEnvErr =
      .error (.error "memoryUsage failed") ∧
    statsHandler sampleConfig true (some sampleBaseline) sampleEnvErr =
      .error (.error "memoryUsage failed") ∧
    httpStatusOf (metricsHandler sampleConfig true (some sampleBaseline) sampleEnvErr) = 500 ∧
    httpStatusOf (statsHandler sampleConfig true (some sampleBaseline) sampleEnvErr) = 500 :=
  (claim5_error_propagation sampleConfig true (some sampleBaseline) sampleEnvErr).1
    (.error "memoryUsage failed") rfl

/-! Claim C6. -/

/-- Claim C6: successive utilization values computed against the single fixed
baseline captured at registration are non-decreasing under sustained
CPU-bound load (active time grows, idle time does not), because each reading
is cumulative-minus-baseline and the baseline is never updated. -/
theorem claim6_elu_monotone (base cur₁ cur₂ : ELUTimes)
    (hact : cur₁.active ≤ cur₂.active)
    (hidle : cur₂.idle = cur₁.idle)
    (hbact : base.active ≤ cur₁.active)
    (hbidle : base.idle ≤ cur₁.idle)
    (hden : 0 < cur₁.active + cur₁.idle - (base.active + base.idle)) :
    ∀ e₁ e₂,
      getEventLoopUtilization true (some base)
        { utilization := JSVal.num (eluRelative base cur₁) } = some e₁ →
      getEventLoopUtilization true (some base)
        { utilization := JSVal.num (eluRelative base cur₂) } = some e₂ →
      e₁.raw ≤ e₂.raw := by
  intro e₁ e₂ h₁ h₂
  rw [getEventLoopUtilization_eq_some] at h₁ h₂
  have he₁ := Option.some_inj.mp h₁
  have he₂ := Option.some_inj.mp h₂
  rw [← he₁, ← he₂]
  show sanitizeNumber (JSVal.num (eluRelative base cur₁)) ≤
    sanitizeNumber (JSVal.num (eluRelative base cur₂))
  rw [sanitizeNumber_num, sanitizeNumber_num]
  unfold eluRelative
  have hD₂ : 0 < cur₂.active + cur₂.idle - (base.active + base.idle) := by
    rw [hidle]
    linarith
  rw [div_le_div_iff₀ hden hD₂, hidle]
  nlinarith [mul_nonneg (sub_nonneg.mpr hact) (sub_nonneg.mpr hbidle)]

/-- Witness for claim C6: baseline (0,0), then readings (1,1) and (3,1). -/
theorem claim6_witness :
    (0 : ℚ) < 1 + 1 - (0 + 0) ∧
    (eluAt { active := 0, idle := 0 } { active := 1, idle := 1 }).raw ≤
      (eluAt { active := 0, idle := 0 } { active := 3, idle := 1 }).raw :=
  ⟨by norm_num,
    claim6_elu_monotone { active := 0, idle := 0 } { active := 1, idle := 1 }
      { active := 3, idle := 1 } (by norm_num) rfl (by norm_num) (by norm_num)
      (by norm_num) _ _ rfl rfl⟩

/-! Claim C7. -/

/-- Claim C7: per registration exactly one histogram is created, enabled
exactly once at registration before any request, and disabled exactly once
in the close hook; request handling never touches the histogram, and the
lifecycle Unregistered → Registered → Closed admits no other transition. -/
theorem claim7_histogram_lifecycle (rs : List String) :
    (runEvents pluginStart (PluginEvent.register :: rs.map PluginEvent.request) =
      some { phase := .registered
           , histogram := some { enableCalls := 1, disableCalls := 0, enabled := true }
           , histogramsCreated := 1 }) ∧
    (runEvents pluginStart
        (PluginEvent.register :: rs.map PluginEvent.request ++ [PluginEvent.close]) =
      some { phase := .closed
           , histogram := some { enableCalls := 1, disableCalls := 1, enabled := false }
           , histogramsCreated := 1 }) ∧
    (∀ s s₂ r, pluginStep s (.request r) = some s₂ → s₂ = s) ∧
    (∀ s, s.phase = .unregistered →
      (∀ r, pluginStep s (.request r) = none) ∧ pluginStep s .close = none) ∧
    (∀ s, s.phase = .registered → pluginStep s .register = none) ∧
    (∀ s e, s.phase = .closed → pluginStep s e = none) := by
  have hreq : ∀ (s : PluginState), s.phase = .registered →
      ∀ (l : List String), runEvents s (l.map PluginEvent.request) = some s := by
    intro s hs l
    induction l with
    | nil => rfl
    | cons r l ih =>
        have hstep : pluginStep s (.request r) = some s := by
          unfold pluginStep
          rw [hs]

        simp only [List.map_cons, runEvents, List.foldlM_cons, hstep, Option.bind_eq_bind]
        exact ih
  have hregPhase : runEvents pluginStart (PluginEvent.register :: rs.map PluginEvent.request) =
      some { phase := .registered
           , histogram := some { enableCalls := 1, disableCalls := 0, enabled := true }
           , histogramsCreated := 1 } := by
    simp only [runEvents, List.foldlM_cons]
    have hstep : pluginStep pluginStart .register =
        some { phase := .registered
             , histogram := some { enableCalls := 1, disableCalls := 0, enabled := true }
             , histogramsCreated := 1 } := rfl
    rw [hstep]
    exact hreq _ rfl rs
  refine ⟨hregPhase, ?_, ?_, ?_, ?_, ?_⟩
  · rw [show PluginEvent.register :: rs.map PluginEvent.request ++ [PluginEvent.close] =
      (PluginEvent.register :: rs.map PluginEvent.request) ++ [PluginEvent.close] from rfl]
    unfold runEvents
    rw [List.foldlM_append]
    rw [show List.foldlM pluginStep pluginStart
        (PluginEvent.register :: rs.map PluginEvent.request) =
      runEvents pluginStart (PluginEvent.register :: rs.map PluginEvent.request) from rfl]
    rw [hregPhase]
    rfl
  · intro s s₂ r hstep
    unfold pluginStep at hstep
    cases hp : s.phase <;> rw [hp] at hstep <;> simp at hstep
    exact hstep.symm
  · intro s hs
    constructor
    · intro r
      unfold pluginStep
      rw [hs]
    · unfold pluginStep
      rw [hs]
  · intro s hs
    unfold pluginStep
    rw [hs]
  · intro s e hs
    cases e <;> unfold pluginStep <;> rw [hs]

/-- Witness for claim C7 with two requests between register and close. -/
theorem claim7_witness :
    runEvents pluginStart
        (PluginEvent.register :: [PluginEvent.request "/metrics", PluginEvent.request "/stats"] ++
          [PluginEvent.close]) =
      some { phase := .closed
           , histogram := some { enableCalls := 1, disableCalls := 1, enabled := false }
           , histogramsCreated := 1 } := by
  have h := (claim7_histogram_lifecycle ["/metrics", "/stats"]).2.1
  simpa using h

/-! Claim C8. -/

/-- Counterexample to claim C8: for the memory reading (rss 1, heapTotal 1,
heapUsed 1, external 0), which satisfies the claim's positivity hypotheses,
`metricsInMB=true` renders rss as `"0.00 MB"`; the prefix `"0.00"` parses to
the value 0, which is not a positive float as the claim requires. -/
theorem claim8_counterexample :
    0 < (1 : ℕ) ∧ formatMemoryValue true 1 = "0.00 MB" ∧
    parseDecimal? "0.00" = some 0 ∧ ¬(0 < (0 : ℚ)) := by
  refine ⟨by norm_num, ?_, ?_, by norm_num⟩
  · have h1 : formatMemoryValue true 1 = toFixed2 ((1 : ℚ) / 1024 / 1024) ++ " MB" := rfl
    have h2 : fixed2Of ((1 : ℚ) / 1024 / 1024) = 0 := by
      unfold fixed2Of
      norm_num
    rw [h1, toFixed2_of_nonneg (by norm_num : (0 : ℚ) ≤ 1 / 1024 / 1024), h2]
    decide
  · have h00 : "0.00" = renderFixed2 0 := by decide
    rw [h00, parseDecimal?_renderFixed2]
    norm_num

/-- Claim C8 (amended): for a memory reading with positive rss, heapTotal and
heapUsed, with `metricsInMB=false` every rendered field is a digit string
parsing back to the exact non-negative byte count (positive for rss,
heapTotal, heapUsed); with `metricsInMB=true` every field is a two-decimal
prefix followed by `" MB"` whose prefix parses as a non-negative float (not
necessarily positive: small byte counts round to `"0.00"`). -/
theorem claim8_fields_parse (mu : MemoryUsage)
    (h1 : 0 < mu.rss) (h2 : 0 < mu.heapTotal) (h3 : 0 < mu.heapUsed) :
    ((∀ v ∈ [mu.rss, mu.heapTotal, mu.heapUsed, mu.external],
        parseDecimal? (formatMemoryValue false v) = some (v : ℚ) ∧
        (formatMemoryValue false v).data.all Char.isDigit = true) ∧
      0 < (mu.rss : ℚ) ∧ 0 < (mu.heapTotal : ℚ) ∧ 0 < (mu.heapUsed : ℚ) ∧
      0 ≤ (mu.external : ℚ)) ∧
    (∀ v ∈ [mu.rss, mu.heapTotal, mu.heapUsed, mu.external],
      ∃ p, formatMemoryValue true v = p ++ " MB" ∧
        ∃ q : ℚ, parseDecimal? p = some q ∧ 0 ≤ q) := by
  constructor
  · constructor
    · intro v _
      refine ⟨?_, ?_⟩
      · show parseDecimal? (renderNat v) = some (v : ℚ)
        exact parseDecimal?_renderNat v
      · show (renderNat v).data.all Char.isDigit = true
        exact List.all_eq_true.mpr (renderNat_all_digits v)
    · refine ⟨?_, ?_, ?_, ?_⟩ <;> [exact_mod_cast h1; exact_mod_cast h2;
        exact_mod_cast h3; positivity]
  · intro v _
    refine ⟨toFixed2 ((v : ℚ) / 1024 / 1024), rfl, ?_⟩
    rw [toFixed2_of_nonneg (by positivity : (0 : ℚ) ≤ (v : ℚ) / 1024 / 1024),
      parseDecimal?_renderFixed2]
    exact ⟨_, rfl, by positivity⟩

/-- Witness for claim C8 on the sample memory reading. -/
theorem claim8_witness :
    0 < sampleMemory.rss ∧
    parseDecimal? (formatMemoryValue false sampleMemory.rss) = some (sampleMemory.rss : ℚ) ∧
    (∃ p, formatMemoryValue true sampleMemory.rss = p ++ " MB" ∧
      ∃ q : ℚ, parseDecimal? p = some q ∧ 0 ≤ q) := by
  have h := claim8_fields_parse sampleMemory (by norm_num [sampleMemory])
    (by norm_num [sampleMemory]) (by norm_num [sampleMemory])
  exact ⟨by norm_num [sampleMemory], (h.1.1 sampleMemory.rss (by simp)).1,
    h.2 sampleMemory.rss (by simp)⟩

/-! Claim C9. -/

/-- Claim C9: serving any request leaves the shared registration state
(configuration, utilization baseline, histogram handle) unchanged, so any
two requests served in either order against the same runtime readings each
produce the same response. -/
theorem claim9_requests_pure :
    (∀ r s env, (serveRequest r s env).1 = s) ∧
    (∀ r₁ r₂ s env₁ env₂,
      (serveRequest r₂ ((serveRequest r₁ s env₁).1) env₂).2 = (serveRequest r₂ s env₂).2 ∧
      (serveRequest r₁ ((serveRequest r₂ s env₂).1) env₁).2 = (serveRequest r₁ s env₁).2) := by
  have hframe : ∀ r s env, (serveRequest r s (env : RuntimeEnv)).1 = s := by
    intro r s env
    cases r <;> rfl
  refine ⟨hframe, ?_⟩
  intro r₁ r₂ s env₁ env₂
  rw [hframe r₁ s env₁, hframe r₂ s env₂]
  exact ⟨rfl, rfl⟩

/-! Claim C10. -/

/-- Claim C10: the configuration merge is a plain key-wise override: a key
present in the options with value `undefined` yields `undefined` in the
merged configuration instead of the documented default; defaults apply only
to absent keys; unrecognized keys are carried into the merged object; and
the plugin reads only the three recognized keys, so an unrecognized key
never affects the configuration used. -/
theorem claim10_config_merge :
    (∀ (opts : JSObj) (k : String), opts.getProp k = some JSVal.undef →
      mergedLookup opts k = some JSVal.undef) ∧
    (∀ (opts : JSObj) (k : String), opts.getProp k = none →
      mergedLookup opts k = defaultConfig.getProp k) ∧
    (∀ (opts : JSObj) (k : String) (v : JSVal), opts.getProp k = some v →
      mergedLookup opts k = some v) ∧
    (∀ (k : String) (v : JSVal) (opts : JSObj),
      k ≠ "metricsInMB" → k ≠ "uptimeRoute" → k ≠ "metricsRoute" →
      toConfig ((k, v) :: opts) = toConfig opts) := by
  refine ⟨?_, ?_, ?_, ?_⟩
  · intro opts k h
    simp [mergedLookup, h]
  · intro opts k h
    simp [mergedLookup, h]
  · intro opts k v h
    simp [mergedLookup, h]
  · intro k v opts hk1 hk2 hk3
    simp [toConfig, mergedLookup, JSObj.getProp, hk1, hk2, hk3]

/-- Witness for claim C10: `{ uptimeRoute: undefined }` keeps `undefined`;
an empty options object gets the default; an unrecognized key is carried
into the merge but leaves the effective configuration unchanged. -/
theorem claim10_witness :
    mergedLookup [("uptimeRoute", JSVal.undef)] "uptimeRoute" = some JSVal.undef ∧
    mergedLookup [] "uptimeRoute" = some (JSVal.str "/uptime") ∧
    mergedLookup [("extra", JSVal.num 1)] "extra" = some (JSVal.num 1) ∧
    toConfig [("extra", JSVal.num 1)] = toConfig [] := by
  obtain ⟨h1, h2, h3, h4⟩ := claim10_config_merge
  refine ⟨h1 _ "uptimeRoute" (by decide), ?_, h3 _ "extra" _ (by decide),
    h4 "extra" (JSVal.num 1) [] (by decide) (by decide) (by decide)⟩
  rw [h2 [] "uptimeRoute" rfl]
  rfl

end FastifyStatistics
